import Mathlib

/-!
Shallow embedding of the CTC model base class (`src/models/ctc/ctc_base.py`)
and the checkpoint-restore logic of the evaluation/visualization scripts
(`src/experiments/csj/evaluation/eval_ctc.py`,
`src/experiments/timit/visualization/plot_multitask_ctc_posterior.py`).

Modelling conventions:
- Python floats are modelled as `ℚ` (exact rational arithmetic).
- The TensorFlow graph is modelled as a list of node-name strings; graph
  construction appends nodes.  A function that can raise returns
  `Graph × Except PyError α` so that "no graph mutation on failure" is a
  statable property (the returned graph equals the input graph).
- Tensors are modelled as `List ℚ`; each trainable variable is a named
  scalar tensor (the claims under study are independent of tensor rank).
- Python exceptions carry their argument tuple as a `List String`
  (Python renders every argument when the exception is displayed).
-/

/-- A TensorFlow computation graph, modelled as the list of node names
created so far. -/
abbrev Graph := List String

/-- A Python exception: `ValueError` or `TypeError`, carrying the argument
tuple passed to the constructor (rendered as strings). -/
inductive PyError where
  | valueError (args : List String)
  | typeError (args : List String)
deriving DecidableEq

/-- True when an `Except` value is an error. -/
def isErr : Except PyError α → Bool
  | .error _ => true
  | .ok _ => false

/-- Decidable check that character list `p` is an initial segment of `s`
(used to model the Python substring operator `in`). -/
def startsWithL : List Char → List Char → Bool
  | [], _ => true
  | _ :: _, [] => false
  | a :: as, b :: bs => a == b && startsWithL as bs

/-- Decidable check that character list `p` occurs contiguously inside `s`
(the Python substring operator `in`). -/
def hasSubstr (p : List Char) : List Char → Bool
  | [] => startsWithL p []
  | c :: t => startsWithL p (c :: t) || hasSubstr p t

/-- String-level substring test: `strContains s pat` models Python
`pat in s`. -/
def strContains (s pat : String) : Bool :=
  hasSubstr pat.data s.data

/-- Python `str.lower()`, modelled as per-character lowercasing (the
identifiers in this codebase are ASCII). -/
def pyLower (s : String) : String :=
  ⟨s.data.map Char.toLower⟩

/-- The closed set of optimizer names (`OPTIMIZER_CLS_NAMES` in
`ctc_base.py`, key insertion order preserved). -/
def OPTIMIZER_CLS_NAMES : List String :=
  ["adagrad", "adadelta", "adam", "momentum", "rmsprop", "sgd"]

/-- The CTC model base class state set up by `ctcBase.__init__`. -/
structure ctcBase where
  batch_size : Nat
  input_size : Nat
  output_size : Nat
  num_unit : Nat
  num_layer : Nat
  num_classes : Nat
  parameter_init : ℚ
  clip_grad : Option ℚ
  clip_activation : Option ℚ
  dropout_ratio_input : ℚ
  dropout_ratio_hidden : ℚ
  weight_decay : ℚ
  summaries_train : List String
  summaries_dev : List String
  name : Option String
deriving DecidableEq

/-- Embedding of `ctcBase.__init__` (lines 43-77 of `ctc_base.py`): stores the network
sizes, sets `num_classes = output_size + 1` (plus blank label), stores the
regularization parameters and starts with empty summary lists. -/
def ctcBase.init (batch_size input_size num_unit num_layer output_size : Nat)
    (parameter_init : ℚ) (clip_grad clip_activation : Option ℚ)
    (dropout_ratio_input dropout_ratio_hidden weight_decay : ℚ)
    (name : Option String) : ctcBase :=
  { batch_size := batch_size
    input_size := input_size
    output_size := output_size
    num_unit := num_unit
    num_layer := num_layer
    num_classes := output_size + 1
    parameter_init := parameter_init
    clip_grad := clip_grad
    clip_activation := clip_activation
    dropout_ratio_input := dropout_ratio_input
    dropout_ratio_hidden := dropout_ratio_hidden
    weight_decay := weight_decay
    summaries_train := []
    summaries_dev := []
    name := name }

/-- A concrete sample model used to instantiate universally quantified
theorems in witnesses. -/
def sampleModel : ctcBase :=
  ctcBase.init 4 3 2 1 37 (1/10) (some 5) (some 50) (1/10) (1/10) (1/100000) none

/-- A sample model with gradient clipping disabled (`clip_grad = None`). -/
def sampleModelNoClip : ctcBase :=
  ctcBase.init 4 3 2 1 37 (1/10) none (some 50) (1/10) (1/10) (1/100000) none

/-! ### Training: `ctcBase.train` and `ctcBase._gradient_clipping` -/

/-- The state updated by one invocation of a training op: the trainable
parameter values and the global step counter. -/
structure TrainState where
  weights : List ℚ
  global_step : Nat
deriving DecidableEq

/-- A training op: invoking it produces the next training state. -/
abbrev TrainOp := TrainState → TrainState

/-- Modelled from the spec: `tf.Optimizer.apply_gradients(grads_and_vars,
global_step)` applies one update step to the parameters and increments the
global step counter atomically with the parameter update ("a single
training step that also advances a global step counter").  The
optimizer-family-specific update rule is abstracted as a learning-rate
scaled gradient step; the claims under study depend only on the step
counter behaviour. -/
def apply_gradients (learning_rate : ℚ) (grads : List ℚ) (s : TrainState) :
    TrainState :=
  { weights := (s.weights.zip grads).map (fun p => p.1 - learning_rate * p.2)
    global_step := s.global_step + 1 }

/-- Modelled from the spec: `tf.Optimizer.minimize(loss, global_step)`
computes the gradients of the loss and applies them via `apply_gradients`,
also incrementing the global step counter.  The gradient values are
supplied as an explicit argument (`tf.gradients` output). -/
def minimize (learning_rate : ℚ) (grads : List ℚ) (s : TrainState) :
    TrainState :=
  apply_gradients learning_rate grads s

/-- Modelled from the spec: `tf.clip_by_value(g, -c, c)` clamps every
element of the gradient tensor to `[-c, c]` (scalar tensor case). -/
def clip_by_value (c g : ℚ) : ℚ :=
  max (-c) (min g c)

/-- Modelled from the spec: `tf.clip_by_norm(g, c)` rescales the tensor to
L2 norm `c` when its norm exceeds `c`.  For the scalar tensors of this
model the L2 norm is the absolute value, so norm clipping clamps to
`[-c, c]`. -/
def clip_by_norm (c g : ℚ) : ℚ :=
  if c < g then c else if g < -c then -c else g

/-- Python 3 comparison `x < y` where `x` may be `None`
(`ctc_base.py` line 160 compares `learning_rate_init < 0.0` directly):
comparing `None` with a float raises `TypeError`. -/
def pyLtNone (x : Option ℚ) (y : ℚ) : Except PyError Bool :=
  match x with
  | none => .error (.typeError
      ["unsupported comparison between instances of NoneType and float"])
  | some v => .ok (decide (v < y))

/-- The optimizer-name error message built at `ctc_base.py` lines 157-159:
the `%s` holes are filled with the comma-joined valid set and with the
(lowercased) provided name. -/
def optimizer_error_msg (provided : String) : String :=
  "Optimizer name should be one of [" ++
    String.intercalate ", " OPTIMIZER_CLS_NAMES ++
    "], you provided " ++ provided ++ "."

/-- Embedding of `ctcBase._gradient_clipping` (lines 198-226): clips each gradient by
norm or by value (threshold `clip_grad`, known non-`None` on this path)
and applies the clipped gradients through the optimizer, which also
increments the global step. -/
def ctcBase.gradient_clipping (clip_grad : ℚ) (learning_rate : ℚ)
    (clip_grad_by_norm : Bool) (grads : List ℚ) : TrainOp :=
  let clipped_grads :=
    if clip_grad_by_norm then grads.map (clip_by_norm clip_grad)
    else grads.map (clip_by_value clip_grad)
  apply_gradients learning_rate clipped_grads

/-- Embedding of `ctcBase.train` (lines 142-196).  Arguments beyond the Python
signature make external inputs explicit: `g` is the graph being built,
`fed_lr` is the value fed to the learning-rate placeholder when
`is_scheduled` is true, and `grads` are the gradient values of the loss
with respect to the trainable variables (`tf.gradients`).  Returns the
(possibly extended) graph and either a `TrainOp` or the raised
exception. -/
def ctcBase.train (model : ctcBase) (g : Graph) (optimizer : String)
    (learning_rate_init : Option ℚ) (clip_grad_by_norm : Bool)
    (is_scheduled : Bool) (fed_lr : ℚ) (grads : List ℚ) :
    Graph × Except PyError TrainOp :=
  let opt := pyLower optimizer
  if opt ∉ OPTIMIZER_CLS_NAMES then
    (g, .error (.valueError [optimizer_error_msg opt]))
  else
    match pyLtNone learning_rate_init 0 with
    | .error e => (g, .error e)
    | .ok true =>
        (g, .error (.valueError
          ["Invalid learning_rate %s.", toString (learning_rate_init.getD 0)]))
    | .ok false =>
        let g := g ++ ["placeholder:learning_rate"]
        let lr := if is_scheduled then fed_lr else learning_rate_init.getD 0
        let g := g ++
          (if opt = "momentum" then ["optimizer:momentum(0.9)"]
           else ["optimizer:" ++ opt])
        let g := g ++ ["variable:global_step"]
        match model.clip_grad with
        | some c =>
            (g ++ ["op:train"],
             .ok (ctcBase.gradient_clipping c lr clip_grad_by_norm grads))
        | none =>
            (g ++ ["op:train"], .ok (minimize lr grads))

/-- Runs the train op produced by a `train` call on a state, when the call
succeeded. -/
def runTrainOp (r : Graph × Except PyError TrainOp) (s : TrainState) :
    Option TrainState :=
  match r.2 with
  | .ok op => some (op s)
  | .error _ => none

/-! ### Substring lemmas for error-message claims -/

theorem startsWithL_append_self (p t : List Char) :
    startsWithL p (p ++ t) = true := by
  induction p with
  | nil => rfl
  | cons a as ih => simp [startsWithL, ih]

theorem hasSubstr_of_startsWithL (p s : List Char)
    (h : startsWithL p s = true) : hasSubstr p s = true := by
  cases s with
  | nil => simpa [hasSubstr] using h
  | cons c t => simp [hasSubstr, h]

theorem hasSubstr_append (a p b : List Char) :
    hasSubstr p (a ++ (p ++ b)) = true := by
  induction a with
  | nil => exact hasSubstr_of_startsWithL p (p ++ b) (startsWithL_append_self p b)
  | cons c cs ih => simp [hasSubstr, ih]

theorem hasSubstr_of_eq_append (p s a b : List Char)
    (h : s = a ++ (p ++ b)) : hasSubstr p s = true := by
  subst h; exact hasSubstr_append a p b

/-! ### Claim theorems about construction and training -/

/-- C5: for every constructed model and every `output_size` value, the
constructed model satisfies `num_classes == output_size + 1` (one blank
class reserved beyond the natural label set). -/
theorem c5_num_classes_eq_output_size_succ
    (batch_size input_size num_unit num_layer output_size : Nat)
    (parameter_init : ℚ) (clip_grad clip_activation : Option ℚ)
    (dri drh wd : ℚ) (name : Option String) :
    (ctcBase.init batch_size input_size num_unit num_layer output_size
      parameter_init clip_grad clip_activation dri drh wd name).num_classes
      = output_size + 1 := rfl

/-- C1: every invocation of the training step returned by `train`
increases the global step counter by exactly 1, whatever the
configuration — in particular both when `clip_grad` is set (the
`apply_gradients` path) and when it is `None` (the `minimize` path). -/
theorem c1_global_step_increments (model : ctcBase) (g : Graph)
    (optimizer : String) (learning_rate_init : Option ℚ)
    (clip_grad_by_norm is_scheduled : Bool) (fed_lr : ℚ) (grads : List ℚ)
    (s : TrainState) :
    ((runTrainOp (model.train g optimizer learning_rate_init
        clip_grad_by_norm is_scheduled fed_lr grads) s).all
      (fun t => t.global_step == s.global_step + 1)) = true := by
  unfold ctcBase.train runTrainOp
  cases learning_rate_init with
  | none =>
      by_cases hm : pyLower optimizer ∈ OPTIMIZER_CLS_NAMES <;>
        simp [hm, pyLtNone]
  | some lr =>
      by_cases hm : pyLower optimizer ∈ OPTIMIZER_CLS_NAMES
      · by_cases hlr : lr < 0
        · simp [hm, hlr, pyLtNone]
        · cases hc : model.clip_grad <;>
            simp [hm, hlr, hc, pyLtNone, minimize, apply_gradients,
              ctcBase.gradient_clipping]
      · simp [hm]

/-- The optimizer error message contains the comma-joined valid set. -/
theorem optimizer_error_msg_contains_set (v : String) :
    strContains (optimizer_error_msg v)
      (String.intercalate ", " OPTIMIZER_CLS_NAMES) = true := by
  apply hasSubstr_of_eq_append
    (String.intercalate ", " OPTIMIZER_CLS_NAMES).data
    (optimizer_error_msg v).data
    ("Optimizer name should be one of [").data
    (("], you provided " ++ v ++ ".").data)
  simp [optimizer_error_msg, String.data_append]

/-- The optimizer error message contains the name it was built from. -/
theorem optimizer_error_msg_contains_value (v : String) :
    strContains (optimizer_error_msg v) v = true := by
  apply hasSubstr_of_eq_append v.data (optimizer_error_msg v).data
    (("Optimizer name should be one of [" ++
      String.intercalate ", " OPTIMIZER_CLS_NAMES ++
      "], you provided ").data)
    (".").data
  simp [optimizer_error_msg, String.data_append]

/-- C3 (amended): `train` reaches optimizer construction (returns a train
op) for every optimizer name whose lowercase form is in the closed set,
given a non-negative learning rate; for any name whose lowercase form is
not in the set it fails — before any graph construction, with a
`ValueError` whose message names the valid set and the lowercased form of
the provided name. -/
theorem c3_optimizer_name_validation (model : ctcBase) (g : Graph)
    (name : String) (lr : ℚ) (cbn sched : Bool) (fed_lr : ℚ)
    (grads : List ℚ) :
    (pyLower name ∈ OPTIMIZER_CLS_NAMES → 0 ≤ lr →
      isErr (model.train g name (some lr) cbn sched fed_lr grads).2 = false)
    ∧ (pyLower name ∉ OPTIMIZER_CLS_NAMES →
      model.train g name (some lr) cbn sched fed_lr grads
          = (g, .error (.valueError [optimizer_error_msg (pyLower name)]))
        ∧ strContains (optimizer_error_msg (pyLower name))
            (String.intercalate ", " OPTIMIZER_CLS_NAMES) = true
        ∧ strContains (optimizer_error_msg (pyLower name)) (pyLower name)
            = true) := by
  constructor
  · intro hm hlr
    have hlt : ¬ lr < 0 := not_lt.mpr hlr
    cases hc : model.clip_grad <;>
      simp [ctcBase.train, hm, hlt, hc, pyLtNone, isErr]
  · intro hm
    exact ⟨by simp [ctcBase.train, hm],
      optimizer_error_msg_contains_set (pyLower name),
      optimizer_error_msg_contains_value (pyLower name)⟩

/-- C3 witness: a valid (mixed-case) name with a non-negative learning
rate succeeds; an invalid name fails with the documented message. -/
theorem c3_optimizer_name_validation_witness :
    isErr (sampleModel.train [] "Adam" (some 1) false false 1 [1]).2 = false
    ∧ sampleModel.train [] "nadam" (some 1) false false 1 [1]
        = ([], .error (.valueError [optimizer_error_msg "nadam"])) :=
  ⟨(c3_optimizer_name_validation sampleModel [] "Adam" 1 false false 1
      [1]).1 (by decide) (by norm_num),
   ((c3_optimizer_name_validation sampleModel [] "nadam" 1 false false 1
      [1]).2 (by decide)).1⟩

/-- C3 counterexample: the claim as stated says the error message names
the provided value; for the invalid mixed-case name `"FOO"` the code
lowercases the name before formatting (`ctc_base.py` line 155), so the
message contains `"foo"` but not the provided string `"FOO"`. -/
theorem c3_counterexample :
    (sampleModel.train [] "FOO" (some 1) false false 1 []).2
        = .error (.valueError [optimizer_error_msg "foo"])
    ∧ strContains (optimizer_error_msg "foo") "foo" = true
    ∧ strContains (optimizer_error_msg "foo") "FOO" = false := by
  refine ⟨rfl, by decide, by decide⟩

/-- C8: with a valid optimizer name and a negative learning rate, `train`
raises a `ValueError` before any graph mutation (the returned graph is the
input graph: no placeholder, optimizer or global-step variable was
created), and the exception arguments name the invalid value. -/
theorem c8_negative_learning_rate (model : ctcBase) (g : Graph)
    (name : String) (lr : ℚ) (cbn sched : Bool) (fed_lr : ℚ)
    (grads : List ℚ) (hname : pyLower name ∈ OPTIMIZER_CLS_NAMES)
    (hlr : lr < 0) :
    model.train g name (some lr) cbn sched fed_lr grads
        = (g, .error (.valueError ["Invalid learning_rate %s.", toString lr]))
    ∧ toString lr ∈ ["Invalid learning_rate %s.", toString lr] := by
  refine ⟨?_, by simp⟩
  simp [ctcBase.train, hname, hlr, pyLtNone]

/-- C8 witness: `train` on `sgd` with learning rate `-1` fails with the
unformatted `ValueError` whose argument tuple carries the value. -/
theorem c8_negative_learning_rate_witness :
    sampleModel.train [] "sgd" (some (-1)) false false 1 []
      = ([], .error (.valueError
          ["Invalid learning_rate %s.", toString (-1 : ℚ)])) :=
  (c8_negative_learning_rate sampleModel [] "sgd" (-1) false false 1 []
    (by decide) (by norm_num)).1

/-- C10: calling `train` with a valid optimizer name but with
`learning_rate_init` left at its default `None` raises a `TypeError`
(Python 3 evaluation of `None < 0.0` at `ctc_base.py` line 160) rather
than a training step or the documented `ValueError`. -/
theorem c10_none_learning_rate_typeerror (model : ctcBase) (g : Graph)
    (name : String) (cbn sched : Bool) (fed_lr : ℚ) (grads : List ℚ)
    (hname : pyLower name ∈ OPTIMIZER_CLS_NAMES) :
    model.train g name none cbn sched fed_lr grads
      = (g, .error (.typeError
          ["unsupported comparison between instances of NoneType and float"]))
    := by
  simp [ctcBase.train, hname, pyLtNone]

/-- C10 witness: `train` on `rmsprop` with no learning rate raises the
`TypeError`. -/
theorem c10_none_learning_rate_typeerror_witness :
    sampleModel.train [] "rmsprop" none false false 1 []
      = ([], .error (.typeError
          ["unsupported comparison between instances of NoneType and float"]))
    :=
  c10_none_learning_rate_typeerror sampleModel [] "rmsprop" false false 1 []
    (by decide)

/-! ### Loss: `ctcBase.compute_loss` -/

/-- Modelled from the spec: `tf.nn.l2_loss(t)` computes half the sum of
the squared entries of `t` (no square root). -/
def l2_loss (v : List ℚ) : ℚ :=
  (v.map (fun x => x * x)).sum / 2

/-- Modelled from the spec: `tf.reduce_mean` over a vector is the sum
divided by the number of entries. -/
def reduce_mean (l : List ℚ) : ℚ :=
  l.sum / (l.length : ℚ)

/-- Embedding of `ctcBase.compute_loss` (lines 99-140), loss arithmetic.  The network
build is abstract: `trainable_variables` is the list of (name, value)
trainable variables of the built graph, `ctc_loss` is the per-utterance
CTC loss vector produced by `tf.nn.ctc_loss`, and `losses` is the current
content of the graph collection named "losses".  Sums half-sum-of-squares
over every trainable variable whose lowercased name does not contain
"bias", scales by the weight-decay coefficient, appends that term and the
batch-mean CTC loss to the collection, and returns the sum of the
collection together with the final collection. -/
def ctcBase.compute_loss (model : ctcBase)
    (trainable_variables : List (String × List ℚ)) (ctc_loss : List ℚ)
    (losses : List ℚ) : ℚ × List ℚ :=
  let weight_sum :=
    ((trainable_variables.filter
        (fun v => ! strContains (pyLower v.1) "bias")).map
      (fun v => l2_loss v.2)).sum
  let losses := losses ++ [weight_sum * model.weight_decay]
  let ctc_loss_mean := reduce_mean ctc_loss
  let losses := losses ++ [ctc_loss_mean]
  (losses.sum, losses)

/-- Sum of squared entries of a tensor. -/
def sumSquares (v : List ℚ) : ℚ :=
  (v.map (fun x => x * x)).sum

/-- Floor square root of a natural number by bounded search (structural,
so it evaluates by `decide`). -/
def natSqrtFloor (n : Nat) : Nat :=
  (((List.range (n + 1)).filter (fun k => k * k ≤ n)).getLast?).getD 0

/-- Rational square root, exact on rationals whose numerator and
denominator are perfect squares (the only inputs it is applied to). -/
def ratSqrt (q : ℚ) : ℚ :=
  (natSqrtFloor q.num.toNat : ℚ) / (natSqrtFloor q.den : ℚ)

/-- The weight-decay term exactly as claim C4 words it: the weight-decay
coefficient times the sum of L2 norms (square roots of sums of squares)
over every trainable variable whose name does not contain "bias"
(case-insensitive). -/
def claimed_weight_decay_term (weight_decay : ℚ)
    (vars : List (String × List ℚ)) : ℚ :=
  weight_decay *
    ((vars.filter (fun v => ! strContains (pyLower v.1) "bias")).map
      (fun v => ratSqrt (sumSquares v.2))).sum

/-- The total loss exactly as claim C4 words it: the claimed weight-decay
term plus the batch-mean CTC loss. -/
def claimed_total_loss (weight_decay : ℚ) (vars : List (String × List ℚ))
    (ctc_loss : List ℚ) : ℚ :=
  claimed_weight_decay_term weight_decay vars + reduce_mean ctc_loss

/-- A sample model with weight-decay coefficient 1, used for the loss
counterexample. -/
def sampleModelWd1 : ctcBase :=
  ctcBase.init 4 3 2 1 37 (1/10) (some 5) (some 50) (1/10) (1/10) 1 none

/-- C4 (amended): `compute_loss` on a fresh graph returns a total loss
equal to the sum of (a) the weight-decay term, computed as the sum over
every trainable variable whose name does not contain "bias"
(case-insensitive) of half the sum of squared entries (`tf.nn.l2_loss`),
times the weight-decay coefficient, and (b) the CTC loss reduced by mean
over the batch; both terms are appended to the "losses" collection and
the total is the sum of that collection. -/
theorem c4_compute_loss_total (model : ctcBase)
    (vars : List (String × List ℚ)) (ctc_loss : List ℚ) :
    (model.compute_loss vars ctc_loss []).2
        = [((vars.filter (fun v => ! strContains (pyLower v.1) "bias")).map
              (fun v => l2_loss v.2)).sum * model.weight_decay,
           reduce_mean ctc_loss]
    ∧ (model.compute_loss vars ctc_loss []).1
        = (model.compute_loss vars ctc_loss []).2.sum
    ∧ (model.compute_loss vars ctc_loss []).1
        = ((vars.filter (fun v => ! strContains (pyLower v.1) "bias")).map
              (fun v => l2_loss v.2)).sum * model.weight_decay
            + reduce_mean ctc_loss := by
  refine ⟨rfl, rfl, ?_⟩
  simp [ctcBase.compute_loss]

/-- C4 counterexample: for the single non-bias variable `w = [3, 4]` with
weight-decay coefficient 1 and zero CTC loss, the claimed total (sum of L2
norms: `sqrt (3² + 4²) = 5`) differs from what the code computes
(`tf.nn.l2_loss`: half the sum of squares, `25/2`). -/
theorem c4_counterexample :
    ratSqrt (sumSquares [(3 : ℚ), 4]) = 5
    ∧ ratSqrt (sumSquares [(3 : ℚ), 4]) * ratSqrt (sumSquares [(3 : ℚ), 4])
        = sumSquares [(3 : ℚ), 4]
    ∧ claimed_total_loss 1 [("w", [3, 4])] [0] = 5
    ∧ (sampleModelWd1.compute_loss [("w", [3, 4])] [0] []).1 = 25 / 2
    ∧ (sampleModelWd1.compute_loss [("w", [3, 4])] [0] []).1
        ≠ claimed_total_loss 1 [("w", [3, 4])] [0] := by
  have hss : sumSquares [(3 : ℚ), 4] = 25 := by
    norm_num [sumSquares]
  have h25 : natSqrtFloor (25 : ℚ).num.toNat = 5 := by decide
  have h1 : natSqrtFloor (25 : ℚ).den = 1 := by decide
  have hr25 : ratSqrt (25 : ℚ) = 5 := by
    rw [ratSqrt, h25, h1]; norm_num
  have hrs : ratSqrt (sumSquares [(3 : ℚ), 4]) = 5 := by
    rw [hss]; exact hr25
  have hwb : strContains (pyLower "w") "bias" = false := by decide
  have hcl : claimed_total_loss 1 [("w", [3, 4])] [0] = 5 := by
    norm_num [claimed_total_loss, claimed_weight_decay_term, hwb, hss, hr25,
      reduce_mean]
  have hco : (sampleModelWd1.compute_loss [("w", [3, 4])] [0] []).1
      = 25 / 2 := by
    norm_num [ctcBase.compute_loss, l2_loss, reduce_mean, hwb,
      sampleModelWd1, ctcBase.init]
  refine ⟨hrs, by rw [hrs, hss]; norm_num, hcl, hco, ?_⟩
  rw [hco, hcl]; norm_num

/-! ### Label error rate: `ctcBase.compute_ler` -/

/-- Levenshtein edit distance between two label sequences. -/
def lev : List Nat → List Nat → Nat
  | [], ys => ys.length
  | x :: xs, [] => (x :: xs).length
  | x :: xs, y :: ys =>
      if x = y then lev xs ys
      else 1 + min (lev xs ys) (min (lev (x :: xs) ys) (lev xs (y :: ys)))
termination_by xs ys => xs.length + ys.length

/-- Modelled from the spec: `tf.edit_distance(hypothesis, truth,
normalize=True)` — the Levenshtein distance between the decoded sequence
and the reference, divided by the reference length. -/
def edit_distance (hypothesis truth : List Nat) : ℚ :=
  (lev hypothesis truth : ℚ) / (truth.length : ℚ)

/-- Embedding of `ctcBase.compute_ler` (lines 270-290): the batch LER is the mean over
utterances of the normalized edit distance between decoded and reference
label sequences (a batch is a list of (decoded, reference) pairs). -/
def compute_ler (batch : List (List Nat × List Nat)) : ℚ :=
  reduce_mean (batch.map (fun p => edit_distance p.1 p.2))

theorem lev_self (xs : List Nat) : lev xs xs = 0 := by
  induction xs with
  | nil => simp [lev]
  | cons x xs ih => simp [lev, ih]

/-- C6: `compute_ler` is the arithmetic mean over the batch of the
Levenshtein distance between decoded and reference normalized by
reference length; it is 0 when decoded equals reference for every
utterance, and is invariant under permutation of the batch. -/
theorem c6_compute_ler_spec :
    (∀ batch : List (List Nat × List Nat),
      compute_ler batch
        = (batch.map (fun p => (lev p.1 p.2 : ℚ) / (p.2.length : ℚ))).sum
            / (batch.length : ℚ))
    ∧ (∀ batch : List (List Nat × List Nat),
        (∀ p ∈ batch, p.1 = p.2) → compute_ler batch = 0)
    ∧ (∀ b1 b2 : List (List Nat × List Nat), b1.Perm b2 →
        compute_ler b1 = compute_ler b2) := by
  refine ⟨?_, ?_, ?_⟩
  · intro batch
    simp [compute_ler, reduce_mean, edit_distance]
  · intro batch h
    have hz : ∀ q ∈ batch.map (fun p => edit_distance p.1 p.2), q = 0 := by
      intro q hq
      rcases List.mem_map.mp hq with ⟨p, hp, rfl⟩
      have hpe := h p hp
      simp [edit_distance, hpe, lev_self]
    simp [compute_ler, reduce_mean, List.sum_eq_zero hz]
  · intro b1 b2 hperm
    have hm := hperm.map (fun p : List Nat × List Nat => edit_distance p.1 p.2)
    simp [compute_ler, reduce_mean, hm.sum_eq, hperm.length_eq]

/-- C6 witness: a batch of exact matches has LER 0, and swapping the two
utterances of a batch leaves the LER unchanged. -/
theorem c6_compute_ler_spec_witness :
    compute_ler [([1, 2], [1, 2]), ([3], [3])] = 0
    ∧ compute_ler [([1], [4, 5]), ([2, 3], [6])]
        = compute_ler [([2, 3], [6]), ([1], [4, 5])] :=
  ⟨c6_compute_ler_spec.2.1 _ (by decide),
   c6_compute_ler_spec.2.2 _ _ (List.Perm.swap _ _ _)⟩

/-! ### Checkpoint restore (`eval_ctc.py` / `plot_multitask_ctc_posterior.py`) -/

/-- Modelled from the spec: the checkpoint state returned by
`tf.train.get_checkpoint_state(model_dir)` — `none` when the model
directory contains no checkpoints, otherwise the recorded path of the
latest checkpoint, which lives inside the model directory.  Paths are
modelled as their slash-separated component lists, which is exactly how
the scripts manipulate them (Python `split('/')` / `'/'.join`). -/
structure CheckpointState where
  model_checkpoint_path : List String
deriving DecidableEq

/-- The restore-path logic shared by `do_eval` (`eval_ctc.py` lines
58-71) and `do_plot` (`plot_multitask_ctc_posterior.py` lines 69-82):
with no checkpoint state, raise `ValueError`; with a checkpoint state,
restore from its recorded path, except that when an explicit epoch is
requested the last path component is replaced by `model.ckpt-<epoch>`
(`'/'.join(model_path.split('/')[:-1]) + '/model.ckpt-' + str(epoch)`). -/
def restore_model_path (ckpt : Option CheckpointState) (epoch : Option Nat) :
    Except PyError (List String) :=
  match ckpt with
  | none => .error (.valueError ["There are not any checkpoints."])
  | some st =>
      match epoch with
      | none => .ok st.model_checkpoint_path
      | some e => .ok (st.model_checkpoint_path.dropLast
          ++ ["model.ckpt-" ++ toString e])

/-- C9: checkpoint restore fails with the "no checkpoints" error when the
model directory contains no checkpoints (no checkpoint state); when an
explicit epoch is requested and a checkpoint state exists whose recorded
latest-checkpoint file lives in the model directory `dir`, the restore
path is exactly `dir/model.ckpt-<epoch>`. -/
theorem c9_checkpoint_restore :
    (∀ epoch : Option Nat, restore_model_path none epoch
        = .error (.valueError ["There are not any checkpoints."]))
    ∧ (∀ (dir : List String) (fname : String) (e : Nat),
        restore_model_path (some ⟨dir ++ [fname]⟩) (some e)
          = .ok (dir ++ ["model.ckpt-" ++ toString e])) := by
  refine ⟨fun _ => rfl, fun dir fname e => ?_⟩
  simp [restore_model_path]

/-! ### Decoding: `ctcBase.decoder`

The two TensorFlow decoders are external to the repository and are
modelled from the spec: greedy decoding takes the per-frame argmax path,
collapses repeated consecutive symbols and removes blanks; beam-search
decoding maintains the top-`beam_width` candidate label sequences across
timesteps under CTC path-summation scoring and returns the best one.
A single utterance is decoded; its frames hold the per-class scores
(monotone images of the per-class probabilities), the blank class being
the last one (`num_classes - 1`). -/

/-- A beam-search hypothesis: a candidate label sequence together with
the probability mass of the paths mapping to it that end in a blank and
in a non-blank frame respectively. -/
abbrev Hyp := List Nat × ℚ × ℚ

/-- Total score of a hypothesis (mass over all of its paths). -/
def hypTotal (h : Hyp) : ℚ := h.2.1 + h.2.2

/-- Pairs each frame entry with its class index, starting at `i`. -/
def enumFrom : Nat → List ℚ → List (Nat × ℚ)
  | _, [] => []
  | i, p :: ps => (i, p) :: enumFrom (i + 1) ps

/-- Concatenation of the images of a list-valued function. -/
def concatMap (f : α → List β) : List α → List β
  | [] => []
  | x :: xs => f x ++ concatMap f xs

/-- Modelled from the spec: one class-extension of a hypothesis under CTC
path-summation semantics — the blank keeps the label sequence (all mass
moves to the ends-in-blank bucket); re-emitting the last label merges
into the same sequence for paths ending non-blank and starts a repeated
label for paths ending blank; any other label extends the sequence. -/
def extendHyp (blank : Nat) (h : Hyp) (cp : Nat × ℚ) : List Hyp :=
  if cp.1 = blank then [(h.1, (h.2.1 + h.2.2) * cp.2, 0)]
  else if h.1.getLast? = some cp.1 then
    [(h.1, 0, h.2.2 * cp.2), (h.1 ++ [cp.1], 0, h.2.1 * cp.2)]
  else
    [(h.1 ++ [cp.1], 0, (h.2.1 + h.2.2) * cp.2)]

/-- Adds a hypothesis into an accumulator, merging (summing both mass
buckets) with an existing hypothesis carrying the same label sequence. -/
def addHyp : List Hyp → Hyp → List Hyp
  | [], h => [h]
  | g :: gs, h =>
      if g.1 = h.1 then (g.1, g.2.1 + h.2.1, g.2.2 + h.2.2) :: gs
      else g :: addHyp gs h

/-- Merges all hypotheses sharing a label sequence (path summation). -/
def mergeHyps (l : List Hyp) : List Hyp := l.foldl addHyp []

/-- Stable insertion into a list sorted by decreasing total score: an
earlier hypothesis stays before later ones of equal score. -/
def insertHypDesc (h : Hyp) : List Hyp → List Hyp
  | [] => [h]
  | g :: gs => if hypTotal g > hypTotal h then g :: insertHypDesc h gs
               else h :: g :: gs

/-- Stable sort by decreasing total score. -/
def sortHypsDesc (l : List Hyp) : List Hyp := l.foldr insertHypDesc []

/-- One timestep of CTC prefix beam search: extend every kept hypothesis
with every class of the frame, merge equal label sequences, keep the top
`beam_width` by total score. -/
def beamStep (blank beam_width : Nat) (hyps : List Hyp) (frame : List ℚ) :
    List Hyp :=
  (sortHypsDesc (mergeHyps
    (concatMap (fun h => concatMap (extendHyp blank h) (enumFrom 0 frame))
      hyps))).take beam_width

/-- Modelled from the spec: `tf.nn.ctc_beam_search_decoder` with
`top_paths = 1` — runs the beam over all frames starting from the empty
hypothesis (mass 1, ending in blank) and returns the best-scoring label
sequence. -/
def beamSearchDecode (num_classes beam_width : Nat)
    (frames : List (List ℚ)) : List Nat :=
  match sortHypsDesc
      (frames.foldl (beamStep (num_classes - 1) beam_width) [([], 1, 0)]) with
  | [] => []
  | h :: _ => h.1

/-- The leftmost maximal element of a list, compared by `val`. -/
def firstMaxBy (val : α → ℚ) : List α → Option α
  | [] => none
  | x :: xs =>
      match firstMaxBy val xs with
      | none => some x
      | some m => if val m > val x then some m else some x

/-- Index of the leftmost maximal entry of a frame (argmax, first
occurrence on ties). -/
def argmaxIdx (frame : List ℚ) : Nat :=
  match firstMaxBy (fun cp : Nat × ℚ => cp.2) (enumFrom 0 frame) with
  | none => 0
  | some cp => cp.1

/-- Collapses repeated consecutive symbols. -/
def collapseRepeated : List Nat → List Nat
  | [] => []
  | [x] => [x]
  | x :: y :: rest =>
      if x = y then collapseRepeated (y :: rest)
      else x :: collapseRepeated (y :: rest)

/-- Modelled from the spec: `tf.nn.ctc_greedy_decoder` — per-frame argmax
path, collapse repeated consecutive symbols, remove blanks (the blank
being the last class). -/
def greedyDecode (num_classes : Nat) (frames : List (List ℚ)) : List Nat :=
  (collapseRepeated (frames.map argmaxIdx)).filter
    (fun c => c != num_classes - 1)

/-- Embedding of `ctcBase.decoder` (lines 228-255): validates `decode_type`, requires
`beam_width` for beam search, and builds the decode op (the decoder graph
nodes and the `to_int32` conversion) on success. -/
def ctcBase.decoder (model : ctcBase) (g : Graph) (frames : List (List ℚ))
    (decode_type : String) (beam_width : Option Nat) :
    Graph × Except PyError (List Nat) :=
  if decode_type ∉ (["greedy", "beam_search"] : List String) then
    (g, .error (.valueError ["decode_type is \"greedy\" or \"beam_search\"."]))
  else if decode_type = "greedy" then
    (g ++ ["op:ctc_greedy_decoder", "op:to_int32"],
     .ok (greedyDecode model.num_classes frames))
  else
    match beam_width with
    | none => (g, .error (.valueError ["Set beam_width."]))
    | some w =>
        (g ++ ["op:ctc_beam_search_decoder", "op:to_int32"],
         .ok (beamSearchDecode model.num_classes w frames))

/-- C7: `decoder` raises a configuration error if and only if the
strategy is not one of greedy / beam_search, or the strategy is
beam_search and `beam_width` is `None`; a failing call performs no graph
construction (the graph is returned unchanged). -/
theorem c7_decoder_error_iff (model : ctcBase) (g : Graph)
    (frames : List (List ℚ)) (decode_type : String)
    (beam_width : Option Nat) :
    (isErr (model.decoder g frames decode_type beam_width).2 = true
      ↔ (decode_type ∉ (["greedy", "beam_search"] : List String)
          ∨ (decode_type = "beam_search" ∧ beam_width = none)))
    ∧ (isErr (model.decoder g frames decode_type beam_width).2 = true →
        (model.decoder g frames decode_type beam_width).1 = g) := by
  by_cases hg : decode_type = "greedy"
  · subst hg
    simp [ctcBase.decoder, isErr]
  · by_cases hb : decode_type = "beam_search"
    · subst hb
      cases beam_width with
      | none => simp [ctcBase.decoder, isErr]
      | some w => simp [ctcBase.decoder, isErr]
    · have hmem : decode_type ∉ (["greedy", "beam_search"] : List String) := by
        simp [hg, hb]
      simp [ctcBase.decoder, hmem, isErr, hb]

/-- C7 witness: beam search without a beam width fails and leaves the
graph untouched. -/
theorem c7_decoder_error_iff_witness :
    isErr (sampleModel.decoder [] [] "beam_search" none).2 = true
    ∧ (sampleModel.decoder [] [] "beam_search" none).1 = [] :=
  ⟨(c7_decoder_error_iff sampleModel [] [] "beam_search" none).1.mpr
      (Or.inr ⟨rfl, rfl⟩),
   (c7_decoder_error_iff sampleModel [] [] "beam_search" none).2 (by rfl)⟩

/-! ### Beam width 1 on a single frame degenerates to greedy -/

/-- The hypothesis produced by extending the initial empty hypothesis
with one class of a frame. -/
def hypOfClass (blank : Nat) (cp : Nat × ℚ) : Hyp :=
  if cp.1 = blank then (([] : List Nat), cp.2, 0) else ([cp.1], 0, cp.2)

theorem concatMap_extendHyp_start (blank : Nat) (i : Nat) (ps : List ℚ) :
    concatMap (extendHyp blank (([] : List Nat), 1, 0)) (enumFrom i ps)
      = (enumFrom i ps).map (hypOfClass blank) := by
  induction ps generalizing i with
  | nil => rfl
  | cons p ps ih =>
      by_cases hib : i = blank <;>
        simp [enumFrom, concatMap, extendHyp, hypOfClass, ih, hib]

theorem addHyp_not_mem (acc : List Hyp) (h : Hyp)
    (hnot : ∀ x ∈ acc, x.1 ≠ h.1) : addHyp acc h = acc ++ [h] := by
  induction acc with
  | nil => rfl
  | cons g gs ih =>
      have hg : g.1 ≠ h.1 := hnot g (by simp)
      simp [addHyp, hg, ih (fun x hx => hnot x (by simp [hx]))]

theorem foldl_addHyp_of_pairwise (l : List Hyp) :
    ∀ acc : List Hyp,
      (∀ x ∈ acc, ∀ y ∈ l, x.1 ≠ y.1) →
      List.Pairwise (fun a b : Hyp => a.1 ≠ b.1) l →
      l.foldl addHyp acc = acc ++ l := by
  induction l with
  | nil => intro acc _ _; simp
  | cons h t ih =>
      intro acc hcross hpw
      have h1 : addHyp acc h = acc ++ [h] :=
        addHyp_not_mem acc h (fun x hx => hcross x hx h (by simp))
      rw [List.foldl_cons, h1, ih (acc ++ [h]) ?_ (List.pairwise_cons.mp hpw).2]
      · simp
      · intro x hx y hy
        rcases List.mem_append.mp hx with hx1 | hx2
        · exact hcross x hx1 y (by simp [hy])
        · have hxh : x = h := by simpa using hx2
          subst hxh
          exact (List.pairwise_cons.mp hpw).1 y hy

theorem mergeHyps_of_pairwise (l : List Hyp)
    (hpw : List.Pairwise (fun a b : Hyp => a.1 ≠ b.1) l) :
    mergeHyps l = l := by
  rw [mergeHyps, foldl_addHyp_of_pairwise l [] (by simp) hpw]
  simp

theorem enumFrom_le (ps : List ℚ) :
    ∀ i : Nat, ∀ cp ∈ enumFrom i ps, i ≤ cp.1 := by
  induction ps with
  | nil => intro i cp h; simp [enumFrom] at h
  | cons p ps ih =>
      intro i cp h
      simp only [enumFrom, List.mem_cons] at h
      rcases h with rfl | h
      · exact le_refl i
      · exact le_trans (Nat.le_succ i) (ih (i + 1) cp h)

theorem enumFrom_pairwise_lt (ps : List ℚ) :
    ∀ i : Nat,
      List.Pairwise (fun a b : Nat × ℚ => a.1 < b.1) (enumFrom i ps) := by
  induction ps with
  | nil => intro i; simp [enumFrom]
  | cons p ps ih =>
      intro i
      rw [enumFrom, List.pairwise_cons]
      exact ⟨fun cp hcp =>
        lt_of_lt_of_le (Nat.lt_succ_self i) (enumFrom_le ps (i + 1) cp hcp),
        ih (i + 1)⟩

theorem candidates_pairwise (blank i : Nat) (ps : List ℚ) :
    List.Pairwise (fun a b : Hyp => a.1 ≠ b.1)
      ((enumFrom i ps).map (hypOfClass blank)) := by
  apply List.Pairwise.map (hypOfClass blank) ?_ (enumFrom_pairwise_lt ps i)
  intro a b hab
  by_cases ha : a.1 = blank <;> by_cases hb2 : b.1 = blank <;>
    simp [hypOfClass, ha, hb2]
  · omega
  · omega

theorem sortHypsDesc_head (l : List Hyp) :
    (sortHypsDesc l).head? = firstMaxBy hypTotal l := by
  induction l with
  | nil => rfl
  | cons x xs ih =>
      have hx : sortHypsDesc (x :: xs) = insertHypDesc x (sortHypsDesc xs) :=
        rfl
      rw [hx]
      cases hs : sortHypsDesc xs with
      | nil =>
          have hn : firstMaxBy hypTotal xs = none := by rw [← ih, hs]; rfl
          simp [insertHypDesc, firstMaxBy, hn]
      | cons g gs =>
          have hg : firstMaxBy hypTotal xs = some g := by rw [← ih, hs]; rfl
          by_cases hgt : hypTotal g > hypTotal x <;>
            simp [insertHypDesc, firstMaxBy, hg, hgt]

theorem firstMaxBy_map (val : β → ℚ) (f : α → β) (l : List α) :
    firstMaxBy val (l.map f)
      = (firstMaxBy (fun a => val (f a)) l).map f := by
  induction l with
  | nil => rfl
  | cons x xs ih =>
      rw [List.map_cons, firstMaxBy, ih, firstMaxBy]
      cases h : firstMaxBy (fun a => val (f a)) xs with
      | none => rfl
      | some m => by_cases hc : val (f m) > val (f x) <;> simp [hc]

theorem hypTotal_hypOfClass (blank : Nat) (cp : Nat × ℚ) :
    hypTotal (hypOfClass blank cp) = cp.2 := by
  by_cases h : cp.1 = blank <;> simp [hypOfClass, hypTotal, h]

theorem firstMaxBy_cons_isSome (val : α → ℚ) (x : α) (xs : List α) :
    ∃ m, firstMaxBy val (x :: xs) = some m := by
  cases h : firstMaxBy val xs with
  | none => exact ⟨x, by simp [firstMaxBy, h]⟩
  | some m =>
      by_cases hc : val m > val x
      · exact ⟨m, by simp [firstMaxBy, h, hc]⟩
      · exact ⟨x, by simp [firstMaxBy, h, hc]⟩

/-- On a single frame, beam search with beam width 1 picks the
leftmost-maximal class (exactly like greedy) and returns `[]` when it is
the blank and `[c]` otherwise — so it coincides with greedy decoding. -/
theorem beam1_single_frame (f : List ℚ) (hf : f ≠ []) :
    beamSearchDecode f.length 1 [f] = greedyDecode f.length [f] := by
  obtain ⟨cp, hcp⟩ : ∃ cp,
      firstMaxBy (fun cp : Nat × ℚ => cp.2) (enumFrom 0 f) = some cp := by
    cases f with
    | nil => exact absurd rfl hf
    | cons p ps =>
        rw [enumFrom]
        exact firstMaxBy_cons_isSome _ _ _
  have hargmax : argmaxIdx f = cp.1 := by
    rw [argmaxIdx, hcp]
  have hcand : concatMap
      (fun h => concatMap (extendHyp (f.length - 1) h) (enumFrom 0 f))
      [(([] : List Nat), (1 : ℚ), (0 : ℚ))]
      = (enumFrom 0 f).map (hypOfClass (f.length - 1)) := by
    rw [concatMap, concatMap, List.append_nil]
    exact concatMap_extendHyp_start (f.length - 1) 0 f
  have hmax_map : firstMaxBy hypTotal
      ((enumFrom 0 f).map (hypOfClass (f.length - 1)))
      = some (hypOfClass (f.length - 1) cp) := by
    rw [firstMaxBy_map]
    have hval : (fun a : Nat × ℚ => hypTotal (hypOfClass (f.length - 1) a))
        = (fun a : Nat × ℚ => a.2) :=
      funext (hypTotal_hypOfClass (f.length - 1))
    rw [hval, hcp]
    rfl
  obtain ⟨rest, hsorted⟩ : ∃ rest,
      sortHypsDesc ((enumFrom 0 f).map (hypOfClass (f.length - 1)))
        = hypOfClass (f.length - 1) cp :: rest := by
    have hh := sortHypsDesc_head
      ((enumFrom 0 f).map (hypOfClass (f.length - 1)))
    rw [hmax_map] at hh
    cases hs : sortHypsDesc ((enumFrom 0 f).map (hypOfClass (f.length - 1)))
        with
    | nil => rw [hs] at hh; simp at hh
    | cons a t =>
        rw [hs] at hh
        simp only [List.head?_cons, Option.some.injEq] at hh
        exact ⟨t, by rw [hh]⟩
  have hbeamstep : beamStep (f.length - 1) 1 [(([] : List Nat), 1, 0)] f
      = [hypOfClass (f.length - 1) cp] := by
    rw [beamStep, hcand,
      mergeHyps_of_pairwise _ (candidates_pairwise (f.length - 1) 0 f),
      hsorted]
    rfl
  have hbeam : beamSearchDecode f.length 1 [f]
      = (hypOfClass (f.length - 1) cp).1 := by
    rw [beamSearchDecode, List.foldl_cons, List.foldl_nil, hbeamstep]
    rfl
  have hgreedy : greedyDecode f.length [f]
      = if cp.1 = f.length - 1 then [] else [cp.1] := by
    rw [greedyDecode, List.map_cons, List.map_nil, hargmax, collapseRepeated]
    by_cases hc : cp.1 = f.length - 1 <;> simp [hc]
  rw [hbeam, hgreedy, hypOfClass]
  by_cases hc : cp.1 = f.length - 1 <;> simp [hc]

/-- A model with `output_size = 2`, hence `num_classes = 3` (blank = 2),
used to exercise the decoder on three-class frames. -/
def sampleModel3 : ctcBase :=
  ctcBase.init 1 1 1 1 2 0 none none 0 0 0 none

/-- C2 (amended): on a single-frame logits tensor, `decoder` with
`beam_search` and `beam_width = 1` returns the same decoded label
sequence as `decoder` with `greedy` (the number of classes matching the
frame width). -/
theorem c2_beam_width_one_single_frame (model : ctcBase) (g : Graph)
    (f : List ℚ) (hf : f ≠ []) (hK : model.num_classes = f.length) :
    (model.decoder g [f] "beam_search" (some 1)).2
      = (model.decoder g [f] "greedy" none).2 := by
  have hb : (model.decoder g [f] "beam_search" (some 1)).2
      = .ok (beamSearchDecode model.num_classes 1 [f]) := by
    rfl
  have hg2 : (model.decoder g [f] "greedy" none).2
      = .ok (greedyDecode model.num_classes [f]) := by
    rfl
  rw [hb, hg2, hK, beam1_single_frame f hf]

/-- C2 witness: on the single frame `[5, 2, 3]` over three classes both
decoders agree. -/
theorem c2_beam_width_one_single_frame_witness :
    (sampleModel3.decoder [] [[5, 2, 3]] "beam_search" (some 1)).2
      = (sampleModel3.decoder [] [[5, 2, 3]] "greedy" none).2 :=
  c2_beam_width_one_single_frame sampleModel3 [] [5, 2, 3] (by simp) rfl

/-- C2 counterexample: on the two-frame input `[[6, 0, 4], [3, 4, 3]]`
(classes 0, 1, blank = 2) greedy follows the per-frame argmax path
`0, 1` and decodes `[0, 1]`, while beam search with width 1 keeps the
label sequence `[0]`, whose path-summed score after frame 2 is
`6*3 + 6*3 = 36` (merge and blank continuations), beating `[0, 1]` with
`6*4 = 24` — so the two decoders return different label sequences on the
same logits. -/
theorem c2_counterexample :
    (sampleModel3.decoder [] [[6, 0, 4], [3, 4, 3]] "beam_search"
        (some 1)).2 = .ok [0]
    ∧ (sampleModel3.decoder [] [[6, 0, 4], [3, 4, 3]] "greedy" none).2
        = .ok [0, 1] := by
  constructor
  · have hb : (sampleModel3.decoder [] [[6, 0, 4], [3, 4, 3]] "beam_search"
        (some 1)).2
        = .ok (beamSearchDecode 3 1 [[6, 0, 4], [3, 4, 3]]) := rfl
    rw [hb]
    norm_num [beamSearchDecode, beamStep, mergeHyps, addHyp, sortHypsDesc,
      insertHypDesc, extendHyp, enumFrom, concatMap, hypTotal]
  · have hg : (sampleModel3.decoder [] [[6, 0, 4], [3, 4, 3]] "greedy"
        none).2
        = .ok (greedyDecode 3 [[6, 0, 4], [3, 4, 3]]) := rfl
    rw [hg]
    norm_num [greedyDecode, argmaxIdx, firstMaxBy, enumFrom,
      collapseRepeated]
